import Mathlib

/-!
Shallow embedding of `obol-ip-updater` (`src/main.go`): a periodic
reconciliation daemon that fetches the host's public IP, compares it with the
latest row of a SQLite history table and with the `CHARON_P2P_EXTERNAL_HOSTNAME`
entry of a `.env` file, and on mismatch rewrites the `.env` file, restarts the
Charon container, and appends the fetched IP to the history table.

External effects (HTTP, SQLite, file system, `docker compose`) are modelled by
explicit outcome oracles passed into each tick; the pure decision and
text-rewriting logic is translated directly from the Go source.
-/

namespace ObolIPUpdater

/-- `envKey` constant from `main.go`. -/
def envKey : String := "CHARON_P2P_EXTERNAL_HOSTNAME"

/-- `checkInterval` (10s), in seconds. -/
def checkInterval : Nat := 10

/-- `retryInterval` (5s), in seconds. -/
def retryInterval : Nat := 5

/-- `maxConsecutiveErrors` local of `main`. -/
def maxConsecutiveErrors : Nat := 5

/-! ### getCurrentIP

`getCurrentIP` issues the HTTP request; we model the already-received response:
its status code, whether the body is well-formed JSON, and the value of the
`ip` field when present (`json.Unmarshal` leaves the zero value `""` when the
field is absent). Network/read errors are outside this model (the claims
explicitly exclude network failures). -/

structure HttpResponse where
  status : Nat
  bodyWellFormed : Bool
  ipField : Option String
deriving DecidableEq

/-- `json.Unmarshal(body, &ipResp)`: fails on a malformed body; on a
well-formed body the `ip` field's value, or the zero value `""` if absent. -/
def unmarshalIP (r : HttpResponse) : Option String :=
  if r.bodyWellFormed then some (r.ipField.getD "") else none

/-- `getCurrentIP` from `main.go`, after the network round-trip succeeded:
non-200 status, unparsable body, and empty parsed IP are errors; otherwise the
parsed IP is returned. -/
def getCurrentIP (r : HttpResponse) : Except String String :=
  if r.status ≠ 200 then Except.error "received non-200 status code"
  else
    match unmarshalIP r with
    | none => Except.error "failed to parse response"
    | some ip =>
      if ip = "" then Except.error "received empty IP from API" else Except.ok ip

/-! ### getEnvIP -/

/-- `getEnvIP` from `main.go`: fails if `godotenv.Load` fails, fails if the
looked-up value is empty, otherwise returns it. `loadOk` models the success of
`godotenv.Load()`, `envVal` the value `os.Getenv(envKey)` observes. -/
def getEnvIP (loadOk : Bool) (envVal : String) : Except String String :=
  if loadOk = false then Except.error "failed to load .env file"
  else if envVal = "" then Except.error "IP not found in .env file"
  else Except.ok envVal

/-- In `main`, `envIP, err := getEnvIP()` leaves `envIP = ""` whenever
`getEnvIP` returns an error (Go zero-value return), and the error is only
logged. -/
def readEnvIP (loadOk : Bool) (envVal : String) : String :=
  match getEnvIP loadOk envVal with
  | Except.ok v => v
  | Except.error _ => ""

/-! ### updateEnvFile: the line rewriting core -/

/-- `strings.HasPrefix line (envKey ++ "=")`, on character lists. -/
def isKeyLine (line : String) : Bool :=
  (envKey ++ "=").data.isPrefixOf line.data

/-- `fmt.Sprintf("%s=%s", envKey, newIP)`. -/
def mkKeyLine (v : String) : String := envKey ++ "=" ++ v

/-- The `for i, line := range lines` loop of `updateEnvFile`: replace the first
line that starts with `envKey=` by `nl` and stop (`break`); report whether a
replacement happened (`found`). -/
def replaceFirstKeyLine : List String → String → List String × Bool
  | [], _ => ([], false)
  | l :: ls, nl =>
    if isKeyLine l then (nl :: ls, true)
    else
      let r := replaceFirstKeyLine ls nl
      (l :: r.1, r.2)

/-- Line-level body of `updateEnvFile`: replace the first `envKey=` line, or
append a fresh `envKey=newIP` line when none was found. -/
def applyKeyLines (lines : List String) (newIP : String) : List String :=
  let r := replaceFirstKeyLine lines (mkKeyLine newIP)
  if r.2 then r.1 else lines ++ [mkKeyLine newIP]

/-- Character-level splitter underlying `strings.Split(content, "\n")`:
`acc` holds the (reversed) characters of the piece being read. -/
def splitNl : List Char → List Char → List String
  | [], acc => [String.mk acc.reverse]
  | c :: cs, acc =>
    if c = '\n' then String.mk acc.reverse :: splitNl cs []
    else splitNl cs (c :: acc)

/-- `strings.Split(content, "\n")` (single-character separator). -/
def splitLines (s : String) : List String := splitNl s.data []

/-- `strings.Join(lines, "\n")`. -/
def joinLines : List String → String
  | [] => ""
  | [l] => l
  | l :: ls => l ++ "\n" ++ joinLines ls

/-- Content-level `.env` rewrite performed by `updateEnvFile`. -/
def updateEnvContent (content newIP : String) : String :=
  joinLines (applyKeyLines (splitLines content) newIP)

/-- Index of the first `envKey=` line, used to state theorems about
`replaceFirstKeyLine`. -/
def firstKeyIdx : List String → Option Nat
  | [] => none
  | l :: ls => if isKeyLine l then some 0 else (firstKeyIdx ls).map (· + 1)

/-- Number of `envKey=` lines in a line list. -/
def countKeyLines (lines : List String) : Nat :=
  (lines.filter isKeyLine).length

/-! ### updateEnvFile with its effects

`updateEnvFile` reads `.env` (may fail: `envContent = none`), rewrites it,
writes it back (oracle `writeOk`), and then calls `restartCharon` (oracle
`restartOk`); a restart failure makes the whole call fail, after the file was
already written. -/

structure EnvUpdate where
  content : Option String
  wrote : Bool
  restartInvoked : Bool
  ok : Bool
deriving DecidableEq

/-- `updateEnvFile` from `main.go`, with file read/write and restart outcomes
explicit. `content` is the `.env` content after the call. -/
def updateEnvFile (envContent : Option String) (newIP : String)
    (writeOk restartOk : Bool) : EnvUpdate :=
  match envContent with
  | none => ⟨none, false, false, false⟩
  | some content =>
    if writeOk = false then ⟨some content, false, false, false⟩
    else ⟨some (updateEnvContent content newIP), true, true, restartOk⟩

/-! ### The reconciliation tick -/

/-- Outcome of the `SELECT ip FROM ip_store ORDER BY updated_at DESC LIMIT 1`
query: `sql.ErrNoRows`, a row, or another database error. -/
inductive DbRead where
  | noRows
  | row (ip : String)
  | failed
deriving DecidableEq

/-- The latest-row query against the history (head = most recent insert),
subject to a database-failure oracle. -/
def dbLatest (hist : List String) (dbOk : Bool) : DbRead :=
  if dbOk = false then DbRead.failed
  else
    match hist with
    | [] => DbRead.noRows
    | ip :: _ => DbRead.row ip

/-- The Go local `storedIP` after the `Scan`: the row's value, or the zero
value `""` when no row was scanned. -/
def storedOf : DbRead → String
  | DbRead.row ip => ip
  | _ => ""

/-- The update condition of `main`:
`err == sql.ErrNoRows || (err == nil && storedIP != currentIP) || (envIP != "" && envIP != storedIP)`.
Only evaluated when the query did not fail. -/
def updateNeeded (dbr : DbRead) (currentIP envIP : String) : Bool :=
  (match dbr with | DbRead.noRows => true | _ => false)
  || (match dbr with | DbRead.row st => st != currentIP | _ => false)
  || (envIP != "" && envIP != storedOf dbr)

/-- Durable + in-process state the loop carries across ticks: the `.env`
content (`none` = unreadable/absent), the history rows (head = most recent),
and `consecutiveErrors`. -/
structure TickState where
  envContent : Option String
  history : List String
  consecutiveErrors : Nat
deriving DecidableEq

/-- Per-tick outcomes of the external collaborators. -/
structure TickInput where
  fetch : Except String String
  envLoadOk : Bool
  envVal : String
  dbOk : Bool
  writeOk : Bool
  restartOk : Bool
  insertOk : Bool

/-- What one iteration of the `for` loop did. -/
structure TickResult where
  state : TickState
  wrote : Bool
  restartInvoked : Bool
  restartSucceeded : Bool
  inserted : Bool
  sleep : Nat
deriving DecidableEq

/-- One iteration of the `for` loop of `main`, translated branch by branch:
fetch failure bumps the error counter and backs off; a database error retries
after `retryInterval`; otherwise the update condition decides whether to
rewrite `.env`, restart, and insert into the history. -/
def tick (s : TickState) (inp : TickInput) : TickResult :=
  match inp.fetch with
  | Except.error _ =>
    let c := s.consecutiveErrors + 1
    ⟨⟨s.envContent, s.history, c⟩, false, false, false, false,
      if c ≥ maxConsecutiveErrors then 2 * checkInterval else retryInterval⟩
  | Except.ok currentIP =>
    let envIP := readEnvIP inp.envLoadOk inp.envVal
    let dbr := dbLatest s.history inp.dbOk
    if dbr = DbRead.failed then
      ⟨⟨s.envContent, s.history, 0⟩, false, false, false, false, retryInterval⟩
    else if updateNeeded dbr currentIP envIP then
      let u := updateEnvFile s.envContent currentIP inp.writeOk inp.restartOk
      if u.ok = false then
        ⟨⟨u.content, s.history, 0⟩, u.wrote, u.restartInvoked, false, false,
          retryInterval⟩
      else if inp.insertOk then
        ⟨⟨u.content, currentIP :: s.history, 0⟩, u.wrote, u.restartInvoked,
          true, true, checkInterval⟩
      else
        ⟨⟨u.content, s.history, 0⟩, u.wrote, u.restartInvoked, true, false,
          checkInterval⟩
    else
      ⟨⟨s.envContent, s.history, 0⟩, false, false, false, false, checkInterval⟩

/-- Modelled from the spec: the decision rule of §4.5 step 4, stated from the
spec's words for the refinement claim C1 — update required iff (a) no stored
record, or (b) a stored record whose value differs from the fetched address,
or (c) the config value is present and differs from the stored value. -/
def specUpdateRequired (hist : List String) (fetched envReading : String) : Prop :=
  hist = [] ∨
  (∃ st rest, hist = st :: rest ∧ st ≠ fetched) ∨
  (∃ st rest, hist = st :: rest ∧ envReading ≠ "" ∧ envReading ≠ st)

/-! ### Lemmas about the `.env` line rewriting -/

lemma isKeyLine_mkKeyLine (v : String) : isKeyLine (mkKeyLine v) = true := by
  have h : (mkKeyLine v).data = (envKey ++ "=").data ++ v.data := by
    simp [mkKeyLine, String.data_append, List.append_assoc]
  unfold isKeyLine
  rw [h, List.isPrefixOf_iff_prefix]
  exact List.prefix_append _ _

lemma firstKeyIdx_none_iff (lines : List String) :
    firstKeyIdx lines = none ↔ ∀ l ∈ lines, isKeyLine l = false := by
  induction lines with
  | nil => simp [firstKeyIdx]
  | cons l ls ih =>
    by_cases hl : isKeyLine l
    · simp [firstKeyIdx, hl]
    · simp [firstKeyIdx, hl, Option.map_eq_none', ih]

lemma firstKeyIdx_some (lines : List String) (i : Nat)
    (h : firstKeyIdx lines = some i) :
    i < lines.length ∧ isKeyLine (lines.getD i "") = true ∧
      ∀ j, j < i → isKeyLine (lines.getD j "") = false := by
  induction lines generalizing i with
  | nil => simp [firstKeyIdx] at h
  | cons l ls ih =>
    by_cases hl : isKeyLine l
    · simp [firstKeyIdx, hl] at h
      subst h
      simpa using hl
    · simp [firstKeyIdx, hl, Option.map_eq_some'] at h
      obtain ⟨j, hj, rfl⟩ := h
      obtain ⟨h1, h2, h3⟩ := ih j hj
      refine ⟨by simpa using Nat.succ_lt_succ h1, by simpa using h2, ?_⟩
      intro k hk
      cases k with
      | zero => simpa using hl
      | succ k => simpa using h3 k (by omega)

lemma replaceFirst_snd (lines : List String) (nl : String) :
    (replaceFirstKeyLine lines nl).2 = lines.any isKeyLine := by
  induction lines with
  | nil => simp [replaceFirstKeyLine]
  | cons l ls ih =>
    by_cases hl : isKeyLine l <;> simp [replaceFirstKeyLine, hl, ih]

lemma replaceFirst_of_none (lines : List String) (nl : String)
    (h : firstKeyIdx lines = none) :
    replaceFirstKeyLine lines nl = (lines, false) := by
  induction lines with
  | nil => rfl
  | cons l ls ih =>
    by_cases hl : isKeyLine l
    · simp [firstKeyIdx, hl] at h
    · simp [firstKeyIdx, hl, Option.map_eq_none'] at h
      simp [replaceFirstKeyLine, hl, ih h]

lemma replaceFirst_of_some (lines : List String) (nl : String) (i : Nat)
    (h : firstKeyIdx lines = some i) :
    replaceFirstKeyLine lines nl = (lines.set i nl, true) := by
  induction lines generalizing i with
  | nil => simp [firstKeyIdx] at h
  | cons l ls ih =>
    by_cases hl : isKeyLine l
    · simp [firstKeyIdx, hl] at h
      subst h
      simp [replaceFirstKeyLine, hl]
    · simp [firstKeyIdx, hl, Option.map_eq_some'] at h
      obtain ⟨j, hj, rfl⟩ := h
      simp [replaceFirstKeyLine, hl, ih j hj]

lemma countKeyLines_replaceFirst (lines : List String) (nl : String)
    (hnl : isKeyLine nl = true) (h : (replaceFirstKeyLine lines nl).2 = true) :
    countKeyLines (replaceFirstKeyLine lines nl).1 = countKeyLines lines := by
  induction lines with
  | nil => simp [replaceFirstKeyLine] at h
  | cons l ls ih =>
    by_cases hl : isKeyLine l
    · simp [replaceFirstKeyLine, hl, countKeyLines, List.filter_cons, hnl]
    · have h2 : (replaceFirstKeyLine ls nl).2 = true := by
        simpa [replaceFirstKeyLine, hl] using h
      simp [replaceFirstKeyLine, hl, countKeyLines, List.filter_cons]
      simpa [countKeyLines] using ih h2

lemma countKeyLines_eq_zero (lines : List String)
    (h : ∀ l ∈ lines, isKeyLine l = false) : countKeyLines lines = 0 := by
  simp only [countKeyLines, List.length_eq_zero, List.filter_eq_nil_iff]
  intro l hm
  simp [h l hm]

lemma countKeyLines_pos (lines : List String) (l : String) (hm : l ∈ lines)
    (hk : isKeyLine l = true) : 0 < countKeyLines lines := by
  have hmem : l ∈ lines.filter isKeyLine := List.mem_filter.mpr ⟨hm, hk⟩
  simpa [countKeyLines] using List.length_pos.mpr (List.ne_nil_of_mem hmem)

/-- C2 is violated when the input file already holds two monitored-key lines:
the loop replaces the first match and stops (`break`), so the duplicate
survives and the rewritten file still holds two monitored-key lines. -/
theorem c2_counterexample :
    ¬ countKeyLines (splitLines (updateEnvContent
        (mkKeyLine "a" ++ "\n" ++ mkKeyLine "b") "c")) ≤ 1 := by
  decide

/-- C2 (amended): the update never removes pre-existing duplicates — the
number of monitored-key lines after the update is exactly
`max 1 (count before)`; in particular it is one exactly when the input held
at most one such line. -/
theorem c2_amended_key_line_count (lines : List String) (v : String) :
    countKeyLines (applyKeyLines lines v) = max 1 (countKeyLines lines) := by
  unfold applyKeyLines
  cases hf : (replaceFirstKeyLine lines (mkKeyLine v)).2 with
  | false =>
    have hany : lines.any isKeyLine = false := by
      rw [← replaceFirst_snd lines (mkKeyLine v)]
      exact hf
    have h0 : countKeyLines lines = 0 := by
      apply countKeyLines_eq_zero
      intro l hm
      by_contra hc
      have : lines.any isKeyLine = true :=
        List.any_eq_true.mpr ⟨l, hm, by simpa using hc⟩
      simp [this] at hany
    have h1 : countKeyLines (lines ++ [mkKeyLine v]) = 1 := by
      simp [countKeyLines, List.filter_append, List.filter_cons,
        isKeyLine_mkKeyLine]
      simpa [countKeyLines] using h0
    simp [hf, h1, h0]
  | true =>
    have hc := countKeyLines_replaceFirst lines (mkKeyLine v)
      (isKeyLine_mkKeyLine v) hf
    have hpos : 0 < countKeyLines lines := by
      have hany : lines.any isKeyLine = true := by
        rw [← replaceFirst_snd lines (mkKeyLine v)]
        exact hf
      obtain ⟨l, hm, hk⟩ := List.any_eq_true.mp hany
      exact countKeyLines_pos lines l hm hk
    simp only [hf, if_pos]
    omega

/-- C7: if no line starts with the monitored key and `=`, the update appends
`envKey=v` at the end leaving the existing lines verbatim; if some line does,
the first such line (index `i`) is replaced by `envKey=v` in place and every
other position is textually unchanged. -/
theorem c7_replace_in_place_or_append (lines : List String) (v : String) :
    ((∀ l ∈ lines, isKeyLine l = false) →
        applyKeyLines lines v = lines ++ [mkKeyLine v]) ∧
    (∀ i, firstKeyIdx lines = some i →
        applyKeyLines lines v = lines.set i (mkKeyLine v) ∧
        isKeyLine (lines.getD i "") = true ∧
        (∀ j, j < i → isKeyLine (lines.getD j "") = false) ∧
        (∀ j, j ≠ i → (applyKeyLines lines v)[j]? = lines[j]?) ∧
        (applyKeyLines lines v)[i]? = some (mkKeyLine v)) := by
  constructor
  · intro h
    have hn : firstKeyIdx lines = none := (firstKeyIdx_none_iff lines).mpr h
    unfold applyKeyLines
    rw [replaceFirst_of_none lines (mkKeyLine v) hn]
    simp
  · intro i hi
    obtain ⟨hlen, hkey, hfirst⟩ := firstKeyIdx_some lines i hi
    have happ : applyKeyLines lines v = lines.set i (mkKeyLine v) := by
      unfold applyKeyLines
      rw [replaceFirst_of_some lines (mkKeyLine v) i hi]
      simp
    refine ⟨happ, hkey, hfirst, ?_, ?_⟩
    · intro j hj
      rw [happ]
      exact List.getElem?_set_ne (Ne.symm hj)
    · rw [happ]
      exact List.getElem?_set_self hlen

/-- C7 on a concrete file: the monitored-key line at index 1 is replaced in
place. -/
theorem c7_witness :
    applyKeyLines ["A=1", mkKeyLine "old", "B=2"] "new" =
      ["A=1", mkKeyLine "old", "B=2"].set 1 (mkKeyLine "new") :=
  ((c7_replace_in_place_or_append ["A=1", mkKeyLine "old", "B=2"] "new").2
    1 (by decide)).1

/-! ### Lemmas about the decision rule and the tick -/

lemma updateNeeded_noRows (ip e : String) :
    updateNeeded DbRead.noRows ip e = true := by
  simp [updateNeeded]

lemma updateNeeded_row_iff (st ip e : String) :
    updateNeeded (DbRead.row st) ip e = true ↔
      st ≠ ip ∨ (e ≠ "" ∧ e ≠ st) := by
  simp [updateNeeded, storedOf, Bool.or_eq_true, Bool.and_eq_true, bne_iff_ne]

lemma specUpdateRequired_nil (ip e : String) : specUpdateRequired [] ip e :=
  Or.inl rfl

lemma specUpdateRequired_cons (st : String) (rest : List String) (ip e : String) :
    specUpdateRequired (st :: rest) ip e ↔ st ≠ ip ∨ (e ≠ "" ∧ e ≠ st) := by
  simp [specUpdateRequired]

lemma dbLatest_ne_failed (hist : List String) :
    dbLatest hist true ≠ DbRead.failed := by
  cases hist <;> simp [dbLatest]

lemma updateEnvFile_ok_restart (c : Option String) (ip : String) (w r : Bool)
    (h : (updateEnvFile c ip w r).ok = true) : r = true := by
  cases c with
  | none => simp [updateEnvFile] at h
  | some content =>
    by_cases hw : w = false
    · simp [updateEnvFile, hw] at h
    · simpa [updateEnvFile, hw] using h

/-- C1: on a tick whose fetch succeeded (and whose collaborators do not fail),
the update — config write, restart, history append — happens exactly when the
spec's decision rule requires it: no stored record, or stored ≠ fetched, or a
present config value differing from the stored one; when none holds, the tick
changes neither the config file nor the history. -/
theorem c1_update_iff_decision_rule (s : TickState) (inp : TickInput)
    (ip content : String)
    (hf : inp.fetch = Except.ok ip) (hdb : inp.dbOk = true)
    (henv : s.envContent = some content)
    (hw : inp.writeOk = true) (hr : inp.restartOk = true)
    (hi : inp.insertOk = true) :
    (((tick s inp).wrote = true ∧ (tick s inp).restartInvoked = true ∧
        (tick s inp).inserted = true) ↔
      specUpdateRequired s.history ip (readEnvIP inp.envLoadOk inp.envVal)) ∧
    (¬ specUpdateRequired s.history ip (readEnvIP inp.envLoadOk inp.envVal) →
      (tick s inp).state.envContent = s.envContent ∧
      (tick s inp).state.history = s.history ∧
      (tick s inp).wrote = false ∧ (tick s inp).restartInvoked = false ∧
      (tick s inp).inserted = false) := by
  cases hh : s.history with
  | nil =>
    constructor
    · simp [tick, hf, dbLatest, hdb, hh, updateNeeded, updateEnvFile, henv,
        hw, hr, hi]
      exact specUpdateRequired_nil ip (readEnvIP inp.envLoadOk inp.envVal)
    · intro hns
      exact absurd (specUpdateRequired_nil ip _) hns
  | cons st rest =>
    by_cases hcond :
        updateNeeded (DbRead.row st) ip (readEnvIP inp.envLoadOk inp.envVal)
          = true
    · constructor
      · simp [tick, hf, dbLatest, hdb, hh, hcond, updateEnvFile, henv, hw,
          hr, hi]
        rw [specUpdateRequired_cons]
        exact (updateNeeded_row_iff st ip _).mp hcond
      · intro hns
        rw [specUpdateRequired_cons] at hns
        exact absurd ((updateNeeded_row_iff st ip _).mp hcond) hns
    · have hcf : updateNeeded (DbRead.row st) ip
          (readEnvIP inp.envLoadOk inp.envVal) = false := by
        simpa using hcond
      constructor
      · simp [tick, hf, dbLatest, hdb, hh, hcf]
        rw [specUpdateRequired_cons]
        intro hreq
        exact hcond ((updateNeeded_row_iff st ip _).mpr hreq)
      · intro _
        simp [tick, hf, dbLatest, hdb, hh, hcf]

/-- C1 on a concrete first-run tick: empty history forces the update. -/
theorem c1_witness :
    (tick ⟨some "", [], 0⟩
        ⟨Except.ok "1.2.3.4", true, "", true, true, true, true⟩).wrote = true ∧
      (tick ⟨some "", [], 0⟩
        ⟨Except.ok "1.2.3.4", true, "", true, true, true, true⟩).restartInvoked
        = true ∧
      (tick ⟨some "", [], 0⟩
        ⟨Except.ok "1.2.3.4", true, "", true, true, true, true⟩).inserted
        = true :=
  (c1_update_iff_decision_rule ⟨some "", [], 0⟩
      ⟨Except.ok "1.2.3.4", true, "", true, true, true, true⟩ "1.2.3.4" ""
      rfl rfl rfl rfl rfl rfl).1.mpr (specUpdateRequired_nil _ _)

/-- C3: a history insert happens only when the restart attempt succeeded; in
particular, when the config write succeeds but the restart fails,
`updateEnvFile` returns an error, `main` skips the insert, and the history is
untouched on that tick. -/
theorem c3_no_insert_after_restart_failure (s : TickState) (inp : TickInput) :
    ((tick s inp).inserted = true → inp.restartOk = true) ∧
    (inp.writeOk = true → inp.restartOk = false →
      (tick s inp).state.history = s.history ∧
        (tick s inp).inserted = false) := by
  constructor
  · intro hins
    cases hfe : inp.fetch with
    | error e => simp [tick, hfe] at hins
    | ok ip =>
      by_cases hdbf : dbLatest s.history inp.dbOk = DbRead.failed
      · simp [tick, hfe, hdbf] at hins
      · by_cases hcond : updateNeeded (dbLatest s.history inp.dbOk) ip
            (readEnvIP inp.envLoadOk inp.envVal) = true
        · by_cases hok :
              (updateEnvFile s.envContent ip inp.writeOk inp.restartOk).ok
                = true
          · exact updateEnvFile_ok_restart _ _ _ _ hok
          · rw [Bool.not_eq_true] at hok
            simp [tick, hfe, hdbf, hcond, hok] at hins
        · simp [tick, hfe, hdbf, hcond] at hins
  · intro hw hr
    cases hfe : inp.fetch with
    | error e => simp [tick, hfe]
    | ok ip =>
      by_cases hdbf : dbLatest s.history inp.dbOk = DbRead.failed
      · simp [tick, hfe, hdbf]
      · by_cases hcond : updateNeeded (dbLatest s.history inp.dbOk) ip
            (readEnvIP inp.envLoadOk inp.envVal) = true
        · have hok :
              (updateEnvFile s.envContent ip inp.writeOk inp.restartOk).ok
                = false := by
            cases hc : s.envContent <;> simp [updateEnvFile, hc, hw, hr]
          simp [tick, hfe, hdbf, hcond, hok]
        · simp [tick, hfe, hdbf, hcond]

/-- C3 on a concrete tick: fresh IP, successful write, failed restart — no
history row is inserted. -/
theorem c3_witness :
    (tick ⟨some "", ["1.2.3.4"], 0⟩
        ⟨Except.ok "5.6.7.8", true, "", true, true, false, true⟩).state.history
        = ["1.2.3.4"] ∧
      (tick ⟨some "", ["1.2.3.4"], 0⟩
        ⟨Except.ok "5.6.7.8", true, "", true, true, false, true⟩).inserted
        = false :=
  (c3_no_insert_after_restart_failure ⟨some "", ["1.2.3.4"], 0⟩
      ⟨Except.ok "5.6.7.8", true, "", true, true, false, true⟩).2 rfl rfl

/-- C4: drift — history holds `A`, the config reads `B ≠ A`, the fetch
returns `A`: condition (c) fires, the fetched `A` is written to the config
file and the restart is invoked even though fetched equals history. -/
theorem c4_config_drift_triggers_update (s : TickState) (inp : TickInput)
    (A B content : String) (rest : List String)
    (hf : inp.fetch = Except.ok A) (hdb : inp.dbOk = true)
    (hh : s.history = A :: rest)
    (he : readEnvIP inp.envLoadOk inp.envVal = B)
    (hBA : B ≠ A) (hB : B ≠ "")
    (hc : s.envContent = some content) (hw : inp.writeOk = true) :
    (tick s inp).wrote = true ∧ (tick s inp).restartInvoked = true ∧
      (tick s inp).state.envContent = some (updateEnvContent content A) := by
  have hcond : updateNeeded (DbRead.row A) A B = true :=
    (updateNeeded_row_iff A A B).mpr (Or.inr ⟨hB, hBA⟩)
  cases hrk : inp.restartOk with
  | false =>
    simp [tick, hf, dbLatest, hdb, hh, he, hcond, updateEnvFile, hc, hw, hrk]
  | true =>
    cases hik : inp.insertOk with
    | false =>
      simp [tick, hf, dbLatest, hdb, hh, he, hcond, updateEnvFile, hc, hw,
        hrk, hik]
    | true =>
      simp [tick, hf, dbLatest, hdb, hh, he, hcond, updateEnvFile, hc, hw,
        hrk, hik]

/-- C4 on concrete values: history `1.1.1.1`, config `2.2.2.2`, fetched
`1.1.1.1`. -/
theorem c4_witness :
    (tick ⟨some "", ["1.1.1.1"], 0⟩
        ⟨Except.ok "1.1.1.1", true, "2.2.2.2", true, true, true, true⟩).wrote
        = true ∧
      (tick ⟨some "", ["1.1.1.1"], 0⟩
        ⟨Except.ok "1.1.1.1", true, "2.2.2.2", true, true, true,
          true⟩).restartInvoked = true ∧
      (tick ⟨some "", ["1.1.1.1"], 0⟩
        ⟨Except.ok "1.1.1.1", true, "2.2.2.2", true, true, true,
          true⟩).state.envContent = some (updateEnvContent "" "1.1.1.1") :=
  c4_config_drift_triggers_update ⟨some "", ["1.1.1.1"], 0⟩
    ⟨Except.ok "1.1.1.1", true, "2.2.2.2", true, true, true, true⟩
    "1.1.1.1" "2.2.2.2" "" ["1.1.1.1"].tail rfl rfl rfl rfl (by decide)
    (by decide) rfl rfl

/-- C5: when fetched, latest stored, and configured values all agree, the
tick is a no-op: no config write, no restart, no insert, and both records are
unchanged. -/
theorem c5_idempotent_tick (s : TickState) (inp : TickInput) (ip : String)
    (rest : List String)
    (hf : inp.fetch = Except.ok ip) (hdb : inp.dbOk = true)
    (hh : s.history = ip :: rest)
    (he : readEnvIP inp.envLoadOk inp.envVal = ip) :
    (tick s inp).state.envContent = s.envContent ∧
      (tick s inp).state.history = s.history ∧
      (tick s inp).wrote = false ∧ (tick s inp).restartInvoked = false ∧
      (tick s inp).inserted = false := by
  have hcond : updateNeeded (DbRead.row ip) ip ip = false := by
    simp [updateNeeded, storedOf]
  simp [tick, hf, dbLatest, hdb, hh, he, hcond]

/-- C5 on concrete values: everything already agrees on `3.3.3.3`. -/
theorem c5_witness :
    (tick ⟨some "", ["3.3.3.3"], 0⟩
        ⟨Except.ok "3.3.3.3", true, "3.3.3.3", true, true, true,
          true⟩).state.history = ["3.3.3.3"] ∧
      (tick ⟨some "", ["3.3.3.3"], 0⟩
        ⟨Except.ok "3.3.3.3", true, "3.3.3.3", true, true, true,
          true⟩).wrote = false :=
  let h := c5_idempotent_tick ⟨some "", ["3.3.3.3"], 0⟩
    ⟨Except.ok "3.3.3.3", true, "3.3.3.3", true, true, true, true⟩
    "3.3.3.3" [] rfl rfl rfl rfl
  ⟨h.2.1, h.2.2.1⟩

/-- C6: a fetch failure increments `consecutiveErrors` and sleeps
`retryInterval` while the incremented counter is below the threshold 5, and
`2 * checkInterval` once it reaches or exceeds 5; the config file and history
are untouched on such a tick; a successful fetch resets the counter to 0. -/
theorem c6_failure_backoff_and_reset (s : TickState) (inp : TickInput) :
    ((∃ e, inp.fetch = Except.error e) →
      (tick s inp).state.consecutiveErrors = s.consecutiveErrors + 1 ∧
      (s.consecutiveErrors + 1 < maxConsecutiveErrors →
        (tick s inp).sleep = retryInterval) ∧
      (maxConsecutiveErrors ≤ s.consecutiveErrors + 1 →
        (tick s inp).sleep = 2 * checkInterval) ∧
      (tick s inp).state.envContent = s.envContent ∧
      (tick s inp).state.history = s.history ∧
      (tick s inp).wrote = false ∧ (tick s inp).restartInvoked = false ∧
      (tick s inp).inserted = false) ∧
    (∀ ip, inp.fetch = Except.ok ip →
      (tick s inp).state.consecutiveErrors = 0) := by
  constructor
  · rintro ⟨e, hfe⟩
    refine ⟨by simp [tick, hfe], ?_, ?_, by simp [tick, hfe],
      by simp [tick, hfe], by simp [tick, hfe], by simp [tick, hfe],
      by simp [tick, hfe]⟩
    · intro h
      simp only [tick, hfe]
      exact if_neg (by omega)
    · intro h
      simp only [tick, hfe]
      exact if_pos (by omega)
  · intro ip hfe
    simp only [tick, hfe]
    by_cases hdbf : dbLatest s.history inp.dbOk = DbRead.failed
    · simp [hdbf]
    · by_cases hcond : updateNeeded (dbLatest s.history inp.dbOk) ip
          (readEnvIP inp.envLoadOk inp.envVal) = true
      · by_cases hok :
            (updateEnvFile s.envContent ip inp.writeOk inp.restartOk).ok
              = true
        · by_cases hik : inp.insertOk = true <;>
            simp [hdbf, hcond, hok, hik]
        · rw [Bool.not_eq_true] at hok
          simp [hdbf, hcond, hok]
      · simp [hdbf, hcond]

/-- C6 on a concrete failing tick at the threshold: the fifth consecutive
failure sleeps the doubled interval. -/
theorem c6_witness :
    (tick ⟨some "", [], 4⟩
        ⟨Except.error "network error", true, "", true, true, true,
          true⟩).state.consecutiveErrors = 5 ∧
      (tick ⟨some "", [], 4⟩
        ⟨Except.error "network error", true, "", true, true, true,
          true⟩).sleep = 2 * checkInterval :=
  let h := (c6_failure_backoff_and_reset ⟨some "", [], 4⟩
    ⟨Except.error "network error", true, "", true, true, true, true⟩).1
    ⟨"network error", rfl⟩
  ⟨h.1, h.2.2.1 (by decide)⟩

/-- C8: after the network round-trip, `getCurrentIP` errors exactly when the
status is not 200, the body is unparsable, the `ip` field is absent, or the
parsed address is empty; otherwise it returns the parsed non-empty address. -/
theorem c8_fetch_error_cases (r : HttpResponse) :
    ((∃ e, getCurrentIP r = Except.error e) ↔
      r.status ≠ 200 ∨ r.bodyWellFormed = false ∨ r.ipField = none ∨
        r.ipField = some "") ∧
    (∀ ip, getCurrentIP r = Except.ok ip →
      r.ipField = some ip ∧ ip ≠ "") := by
  obtain ⟨st, wf, fld⟩ := r
  by_cases hs : st = 200
  · subst hs
    cases wf with
    | false =>
      constructor
      · simp [getCurrentIP, unmarshalIP]
      · intro ip hip
        simp [getCurrentIP, unmarshalIP] at hip
    | true =>
      cases fld with
      | none =>
        constructor
        · simp [getCurrentIP, unmarshalIP]
        · intro ip hip
          simp [getCurrentIP, unmarshalIP] at hip
      | some v =>
        by_cases hv : v = ""
        · subst hv
          constructor
          · simp [getCurrentIP, unmarshalIP]
          · intro ip hip
            simp [getCurrentIP, unmarshalIP] at hip
        · constructor
          · simp [getCurrentIP, unmarshalIP, hv]
          · intro ip hip
            simp [getCurrentIP, unmarshalIP, hv] at hip
            subst hip
            exact ⟨rfl, hv⟩
  · constructor
    · simp [getCurrentIP, hs]
    · intro ip hip
      simp [getCurrentIP, hs] at hip

/-- C8 on a concrete successful response. -/
theorem c8_witness :
    (⟨200, true, some "9.9.9.9"⟩ : HttpResponse).ipField = some "9.9.9.9" ∧
      ("9.9.9.9" : String) ≠ "" :=
  (c8_fetch_error_cases ⟨200, true, some "9.9.9.9"⟩).2 "9.9.9.9" rfl

/-- C9: when the config write and restart succeed but the history insert
fails, the tick completes normally: the new config content stays (no
rollback), no history row is added, and the loop sleeps the standard
`checkInterval` instead of retrying. -/
theorem c9_insert_failure_best_effort (s : TickState) (inp : TickInput)
    (ip content : String)
    (hf : inp.fetch = Except.ok ip) (hdb : inp.dbOk = true)
    (hc : s.envContent = some content)
    (hw : inp.writeOk = true) (hr : inp.restartOk = true)
    (hi : inp.insertOk = false)
    (hcond : updateNeeded (dbLatest s.history true) ip
        (readEnvIP inp.envLoadOk inp.envVal) = true) :
    (tick s inp).wrote = true ∧ (tick s inp).restartSucceeded = true ∧
      (tick s inp).inserted = false ∧
      (tick s inp).state.envContent = some (updateEnvContent content ip) ∧
      (tick s inp).state.history = s.history ∧
      (tick s inp).sleep = checkInterval := by
  have hdbf := dbLatest_ne_failed s.history
  simp [tick, hf, hdb, hcond, hdbf, updateEnvFile, hc, hw, hr, hi]

/-- C9 on a concrete tick with a failing insert. -/
theorem c9_witness :
    (tick ⟨some "", [], 0⟩
        ⟨Except.ok "4.4.4.4", true, "", true, true, true,
          false⟩).state.history = [] ∧
      (tick ⟨some "", [], 0⟩
        ⟨Except.ok "4.4.4.4", true, "", true, true, true,
          false⟩).sleep = checkInterval :=
  let h := c9_insert_failure_best_effort ⟨some "", [], 0⟩
    ⟨Except.ok "4.4.4.4", true, "", true, true, true, false⟩ "4.4.4.4" ""
    rfl rfl rfl rfl rfl rfl (by decide)
  ⟨h.2.2.2.2.1, h.2.2.2.2.2⟩

/-- C10: every failure of `getEnvIP` — a failing `godotenv.Load` just as much
as an absent/empty key — leaves `envIP = ""` in `main`, so the `envIP != ""`
guard of drift condition (c) can never fire, and the tick behaves exactly as
one in which the `.env` load failed outright: no retry, no abort. -/
theorem c10_env_read_failure_absent (loadOk : Bool) (envVal : String)
    (h : loadOk = false ∨ envVal = "") :
    readEnvIP loadOk envVal = "" ∧
    (∀ st : String, (readEnvIP loadOk envVal != "" &&
        readEnvIP loadOk envVal != st) = false) ∧
    (∀ (s : TickState) (inp : TickInput),
      inp.envLoadOk = loadOk → inp.envVal = envVal →
      tick s inp =
        tick s ⟨inp.fetch, false, "", inp.dbOk, inp.writeOk, inp.restartOk,
          inp.insertOk⟩) := by
  have h0 : readEnvIP loadOk envVal = "" := by
    rcases h with h | h
    · simp [readEnvIP, getEnvIP, h]
    · subst h
      cases loadOk <;> simp [readEnvIP, getEnvIP]
  refine ⟨h0, ?_, ?_⟩
  · intro st
    rw [h0]
    simp
  · intro s inp h1 h2
    cases hfe : inp.fetch with
    | error e => simp [tick, hfe]
    | ok ip =>
      simp only [tick, hfe]
      rw [h1, h2, h0]
      simp [readEnvIP, getEnvIP]

/-- C10 on a concrete failing `.env` load. -/
theorem c10_witness : readEnvIP false "7.7.7.7" = "" :=
  (c10_env_read_failure_absent false "7.7.7.7" (Or.inl rfl)).1

end ObolIPUpdater
